import Mathlib

/-!
Shallow embedding of the smart-widget-builder library (src/Library/lib.js and
its helpers module) together with theorems checking the specification's
claims about it.

JavaScript runtime values that matter for the embedded functions (dynamic
typing, falsiness) are modelled by the inductive type `JSVal`; JS numbers are
modelled by `ℚ` (the embedded code only constructs, compares and sorts them).
JS arrays become Lean lists, JS objects become association lists, and a
constructor that can `throw` becomes a function into `Except String _`.
-/

/-- Model of a JavaScript runtime value, as far as the embedded code
inspects one: `typeof` distinctions and falsiness. -/
inductive JSVal where
  | undef
  | null
  | boolean (b : Bool)
  | num (q : ℚ)
  | str (s : String)
  | objOrArr
deriving DecidableEq, Repr

/-- JavaScript falsiness: `undefined`, `null`, `false`, `0` and `""` are
falsy, everything else the embedded code handles is truthy. -/
def jsFalsy : JSVal → Bool
  | .undef => true
  | .null => true
  | .boolean b => !b
  | .num q => q = 0
  | .str s => s = ""
  | .objOrArr => false

/-- Model of `[...new Set(xs)]`: deduplication keeping the first occurrence
of each element, in insertion order. -/
def jsSetDedup {α : Type} [DecidableEq α] (xs : List α) : List α :=
  xs.foldl (fun acc x => if x ∈ acc then acc else acc ++ [x]) []

/-- Model of `s.startsWith(p)` on strings. -/
def jsStartsWith (s p : String) : Bool :=
  p.data.isPrefixOf s.data

/-- helpers.js `isTitleValid`: `typeof title !== "string"` fails, a string
of any content passes. -/
def isTitleValid (title : JSVal) : Bool :=
  match title with
  | .str _ => true
  | _ => false

/-- Characters admitted by the local part `[a-zA-Z0-9._%+-]` of the zap
email regular expression in helpers.js. -/
def isEmailLocalChar (c : Char) : Bool :=
  c.isAlpha || c.isDigit || c = '.' || c = '_' || c = '%' || c = '+' || c = '-'

/-- Characters admitted by the domain part `[a-zA-Z0-9.-]` of the zap email
regular expression in helpers.js. -/
def isEmailDomainChar (c : Char) : Bool :=
  c.isAlpha || c.isDigit || c = '.' || c = '-'

/-- Matcher for the domain side `[a-zA-Z0-9.-]+\.[a-zA-Z]\x7b2,\x7d$` of the
email regular expression: some split at a dot leaves a non-empty all-domain
prefix and an alphabetic suffix of length at least two; since the suffix
admits no dot, the split, when it exists, is at the last dot. -/
def emailDomainMatch (domain : List Char) : Bool :=
  match (domain.reverse.span (fun c => c ≠ '.') : List Char × List Char) with
  | (crev, '.' :: brev) =>
      decide (brev ≠ []) && brev.all isEmailDomainChar &&
      decide (crev.length ≥ 2) && crev.all Char.isAlpha
  | _ => false

/-- Matcher for helpers.js `emailAddrRegex =
`^[a-zA-Z0-9._%+-]+@[a-zA-Z0-9.-]+\.[a-zA-Z]\x7b2,\x7d$`: a non-empty local
part (which admits no `@`, so it ends at the first `@`), the separator, and a
matching domain. -/
def emailAddrRegexTest (s : String) : Bool :=
  match (s.data.span (fun c => c ≠ '@') : List Char × List Char) with
  | (lpart, '@' :: domain) =>
      decide (lpart ≠ []) && lpart.all isEmailLocalChar && emailDomainMatch domain
  | _ => false

/-- Structured validation result `\x7bstatus, msg\x7d` returned by the
helpers.js validators; a successful return carries no `msg`. -/
structure VResult where
  status : Bool
  msg : Option String
deriving DecidableEq, Repr

/-- helpers.js `isURLValid(url, type)`. The absent / falsy `type` argument is
modelled by the empty string (the code only tests `!type` and membership in
fixed string lists, on which `undefined` and `""` behave alike). -/
def isURLValid (url : String) (ty : String := "") : VResult :=
  if (ty = "" ∨ ty ∈ ["redirect", "post", "app"]) ∧
      ¬(jsStartsWith url "https://" = true ∨ jsStartsWith url "http://" = true ∨
        jsStartsWith url "data:image/" = true) then
    ⟨false, some "Invalid URL"⟩
  else if ty = "nostr" ∧
      ¬(jsStartsWith url "nostr:" = true ∨ jsStartsWith url "npub" = true ∨
        jsStartsWith url "nprofile" = true ∨ jsStartsWith url "note1" = true ∨
        jsStartsWith url "nevent" = true ∨ jsStartsWith url "naddr" = true) then
    ⟨false, some "Invalid nostr URL schema"⟩
  else if ty = "zap" ∧
      ¬(emailAddrRegexTest url = true ∨
        (jsStartsWith url "lnurl" = true ∧ url.length > 32) ∨
        (jsStartsWith url "lnbc" = true ∧ url.length > 32)) then
    ⟨false, some "Invalid zap URL, it must be a valid email address, lnurl* address or an lnbc* invoice"⟩
  else
    ⟨true, none⟩

/-- A constructed lib.js `Button` instance: the four fields stored by the
constructor once all its checks have passed. -/
structure Button where
  index : ℚ
  label : String
  btype : String
  url : String
deriving DecidableEq, Repr

/-- lib.js `Button` constructor, with `throw` modelled by `Except.error`.
The checks run in source order: `typeof index !== "number" || index === 0`,
then `!label || typeof label !== "string"`, then membership of `type` in the
five allowed values (false for any non-string), then
`!url || typeof url !== "string"`, then `isURLValid(url, type)`. -/
def mkButton (index label btype url : JSVal) : Except String Button :=
  match index with
  | .num idx =>
    if idx = 0 then .error "Button index must be an integer greater than 0"
    else
      match label with
      | .str lbl =>
        if lbl = "" then .error "Button label is required"
        else
          match btype with
          | .str bty =>
            if bty ∈ ["nostr", "zap", "redirect", "post", "app"] then
              match url with
              | .str u =>
                if u = "" then .error "Button url is required"
                else
                  match isURLValid u bty with
                  | ⟨true, _⟩ => .ok ⟨idx, lbl, bty, u⟩
                  | ⟨false, m⟩ => .error (m.getD "")
              | _ => .error "Button url is required"
            else
              .error "Button type must be one these values (redirect | nostr | zap | post | app)"
          | _ => .error "Button type must be one these values (redirect | nostr | zap | post | app)"
      | _ => .error "Button label is required"
  | _ => .error "Button index must be an integer greater than 0"

/-- A smart widget component, as dispatched on by `instanceof` checks in the
source: the four component classes plus a value of any other class
(`unknown`), which the set validator must reject. -/
inductive Component where
  | icon (url : String)
  | image (url : String)
  | inp (label : String)
  | button (index : ℚ) (label : String) (btype : String) (url : String)
  | unknown
deriving DecidableEq, Repr

/-- Test for `comp instanceof Icon`. -/
def Component.isIcon : Component → Bool
  | .icon _ => true
  | _ => false

/-- Test for `comp instanceof Image`. -/
def Component.isImage : Component → Bool
  | .image _ => true
  | _ => false

/-- Test for `comp instanceof Input`. -/
def Component.isInput : Component → Bool
  | .inp _ => true
  | _ => false

/-- Test for a value that is none of the four component classes. -/
def Component.isUnknown : Component → Bool
  | .unknown => true
  | _ => false

/-- The `buttons` accumulator of `isSWComponentsSetValid`: the loop pushes
`comp.getProps().index` for every Button, in order. -/
def buttonIndexes (components : List Component) : List ℚ :=
  components.filterMap fun c =>
    match c with
    | .button i _ _ _ => some i
    | _ => none

/-- The `buttonTypes` accumulator of `isSWComponentsSetValid`: the loop
pushes `comp.getProps().type` for every Button, in order. -/
def buttonTypesOf (components : List Component) : List String :=
  components.filterMap fun c =>
    match c with
    | .button _ _ t _ => some t
    | _ => none

/-- The `jsEveryIdx p xs i` helper models `xs.every((x, j) => p x j)` over a
list whose first element sits at index `i`. -/
def jsEveryIdx (p : ℚ → ℕ → Bool) : List ℚ → ℕ → Bool
  | [], _ => true
  | x :: xs, i => p x i && jsEveryIdx p xs (i + 1)

/-- helpers.js `isConsecutiveArray`: deduplicate (`[...new Set(arr)]`), sort
ascending (`sort((a, b) => a - b)`, modelled by a stable sort under `≤`),
reject more than 6 distinct values, then require that no duplicate was
removed, that the first sorted value is `1` (on the empty array `sorted[0]`
is `undefined` and the strict equality is false), and that the sorted values
are exactly `i + 1` at each position `i`. -/
def isConsecutiveArray (arr : List ℚ) : Bool :=
  let sorted := (jsSetDedup arr).insertionSort (· ≤ ·)
  if sorted.length > 6 then false
  else
    decide (sorted.length = arr.length) &&
    decide (sorted.head? = some 1) &&
    jsEveryIdx (fun num i => decide (num = ((i + 1 : ℕ) : ℚ))) sorted 0

/-- Failure reason of rule 1 of the set validator. -/
def msgNonEmptyArray : String := "The components array must be a non empty array"

/-- Failure reason of rule 2 of the set validator. -/
def msgUnknownComponent : String := "One or more elements are not a smart widget components"

/-- Failure reason for a missing image. -/
def msgImageRequired : String := "An image component is required"

/-- Failure reason for more than one image. -/
def msgTooManyImages : String :=
  "The number of image components has exceeded the allowed limit (1 max)"

/-- Failure reason for a missing icon on an action/tool widget. -/
def msgIconRequired : String :=
  "An icon component is required for smart widgets with (action | tools) types"

/-- Failure reason for more than one icon. -/
def msgTooManyIcons : String :=
  "The number of icon components has exceeded the allowed limit (1 max)"

/-- Failure reason of the non-basic input/button/app rule. -/
def msgAppButton : String :=
  "Only an image and a button of app type are required for smart widgets with (action | tools) types"

/-- Failure reason for more than one input. -/
def msgTooManyInputs : String :=
  "The number of input components has exceeded the allowed limit (1 max)"

/-- Failure reason of the button-index rule. -/
def msgButtonIndexes : String :=
  "The number of button components has either exceeded the allowed limit (6 max), or has a non consecutive indexes"

/-- helpers.js `isSWComponentsSetValid(instance, type)` on an array argument.
The source loop both accumulates the per-class arrays and returns on the
first element that is none of the four component classes; since that early
return produces the same result as checking unknown elements up front, the
loop is modelled by the `filter`/`filterMap` accumulators plus an `any`
test. The guard order below is the source's guard order. -/
def isSWComponentsSetValid (components : List Component) (ty : String) : VResult :=
  if components.length = 0 then ⟨false, some msgNonEmptyArray⟩
  else
    let isDefault : Bool := decide (ty ∉ ["action", "tool"])
    let icons := components.filter Component.isIcon
    let images := components.filter Component.isImage
    let inputs := components.filter Component.isInput
    let buttons := buttonIndexes components
    let buttonTypes := buttonTypesOf components
    if components.any Component.isUnknown then ⟨false, some msgUnknownComponent⟩
    else if images.length = 0 then ⟨false, some msgImageRequired⟩
    else if images.length > 1 then ⟨false, some msgTooManyImages⟩
    else if icons.length = 0 ∧ isDefault = false then ⟨false, some msgIconRequired⟩
    else if icons.length > 1 then ⟨false, some msgTooManyIcons⟩
    else if isDefault = false ∧ inputs.length > 0 ∧ buttons.length > 1 ∧
        "app" ∉ buttonTypes then ⟨false, some msgAppButton⟩
    else if inputs.length > 1 then ⟨false, some msgTooManyInputs⟩
    else if buttons.length > 0 ∧ isConsecutiveArray buttons = false then
      ⟨false, some msgButtonIndexes⟩
    else ⟨true, none⟩

/-- One element of the `buttons` accumulator of `SWComponentsSet.getProps`:
the button's index together with its already-built metadata tag. -/
structure BtnEntry where
  index : ℚ
  metadata : List String
deriving DecidableEq, Repr

/-- The `images` accumulator of `SWComponentsSet.getProps`: the source
pushes both Icon tags (`["icon", url]`) and Image tags (`["image", url]`)
into `images`, in iteration order (its `icons` array is never pushed to). -/
def iconImageTags (components : List Component) : List (List String) :=
  components.filterMap fun c =>
    match c with
    | .icon url => some ["icon", url]
    | .image url => some ["image", url]
    | _ => none

/-- The `inputs` accumulator of `SWComponentsSet.getProps`. -/
def inputTags (components : List Component) : List (List String) :=
  components.filterMap fun c =>
    match c with
    | .inp label => some ["input", label]
    | _ => none

/-- The `buttons` accumulator of `SWComponentsSet.getProps`. -/
def buttonEntries (components : List Component) : List BtnEntry :=
  components.filterMap fun c =>
    match c with
    | .button i l t u => some ⟨i, ["button", l, t, u]⟩
    | _ => none

/-- lib.js `SWComponentsSet.getProps()`: the loop fills the accumulators in
iteration order (modelled by `filterMap`), then the result concatenates
`icons` (never pushed to in the source, hence `[]`), `images` (Icon and
Image tags interleaved in original order), `inputs`, and the button
metadata sorted ascending by index (`sort((a, b) => a.index - b.index)`,
a stable sort, modelled by `insertionSort` under `≤` on indexes). -/
def SWComponentsSet_getProps (components : List Component) : List (List String) :=
  let icons : List (List String) := []
  icons ++ iconImageTags components ++ inputTags components ++
    ((buttonEntries components).insertionSort
      (fun a b => a.index ≤ b.index)).map BtnEntry.metadata

/-- A network event as the collector consumes it: its author key
(`event.pubkey`) and its raw serialized form (`event.rawEvent()`), the
latter kept abstract as a string. -/
structure NEvent where
  pubkey : String
  raw : String
deriving DecidableEq, Repr

/-- The value `getSubData` resolves with. -/
structure SubResult where
  data : List String
  pubkeys : List String
deriving DecidableEq, Repr

/-- State of one `getSubData` collection: the `events` and `pubkeys`
accumulators, the absolute time at which the currently armed quiet-period
timer fires, and the resolved value once `resolve` has run (the promise
resolves at most once; after it the subscription is stopped). -/
structure CollectState where
  events : List String
  pubkeys : List String
  deadline : ℕ
  result : Option SubResult
deriving DecidableEq, Repr

/-- One `sub.on("event", ...)` delivery at absolute time `arrival.1`. If the
collection already resolved, the stopped subscription delivers nothing. If
the armed timer fired at or before the arrival, the timer callback ran
first: it stopped the subscription and resolved with the accumulated data
and the de-duplicated pubkeys. Otherwise the handler pushes
`event.pubkey` and `event.rawEvent()` and re-arms the timer `timeout`
milliseconds after the arrival (`startTimer` clears the pending timer). -/
def stepEvent (timeout : ℕ) (st : CollectState) (arrival : ℕ × NEvent) : CollectState :=
  if st.result.isSome then st
  else if st.deadline ≤ arrival.1 then
    { st with result := some ⟨st.events, jsSetDedup st.pubkeys⟩ }
  else
    { events := st.events ++ [arrival.2.raw]
      pubkeys := st.pubkeys ++ [arrival.2.pubkey]
      deadline := arrival.1 + timeout
      result := none }

/-- The body of the `getSubData` promise once a subscription is open: the
initial `startTimer()` arms the timer at time `timeout`, each delivery is
processed by `stepEvent` in arrival order, and after the last delivery the
pending timer fires and resolves with the accumulated state (when no earlier
gap already resolved it). -/
def runCollector (timeout : ℕ) (arrivals : List (ℕ × NEvent)) : SubResult :=
  let final := arrivals.foldl (stepEvent timeout) ⟨[], [], timeout, none⟩
  match final.result with
  | some r => r
  | none => ⟨final.events, jsSetDedup final.pubkeys⟩

/-- JS property read `obj[k]`: the value at the first matching key, or
`undefined` when the key is absent. -/
def jsLookup (k : String) : List (String × JSVal) → JSVal
  | [] => .undef
  | p :: rest => if p.1 = k then p.2 else jsLookup k rest

/-- JS `delete obj[k]`: the object without the key. -/
def jsDelete (k : String) (obj : List (String × JSVal)) : List (String × JSVal) :=
  obj.filter (fun p => p.1 ≠ k)

/-- The per-filter map in `getSubData`: copy the filter object and, when
`!_["#t"]` (the `"#t"` value is absent or falsy), delete its `"#t"` key;
every other key is left as is. -/
def stripHashT (obj : List (String × JSVal)) : List (String × JSVal) :=
  if jsFalsy (jsLookup "#t" obj) = true then jsDelete "#t" obj else obj

/-- The observable outcome of one `getSubData` call: the resolved value,
whether a subscription was opened, and the filter list submitted to
`ndkInstance.subscribe` when one was. -/
structure SubOutcome where
  data : List String
  pubkeys : List String
  subscriptionOpened : Bool
  submittedFilters : Option (List (List (String × JSVal)))
deriving DecidableEq, Repr

/-- helpers.js `getSubData(ndkInstance, filter, timeout = 1000)`. The
`filter` argument is `none` for an absent/falsy argument; a present empty
array also resolves immediately with empty results and opens no
subscription. Otherwise the `"#t"`-stripped filters are submitted and the
collection ran by `runCollector` over the deliveries resolves the call. -/
def getSubData (filter : Option (List (List (String × JSVal)))) (timeout : ℕ)
    (arrivals : List (ℕ × NEvent)) : SubOutcome :=
  match filter with
  | none => ⟨[], [], false, none⟩
  | some fl =>
    if fl.length = 0 then ⟨[], [], false, none⟩
    else
      let filtered := fl.map stripHashT
      let res := runCollector timeout arrivals
      ⟨res.data, res.pubkeys, true, some filtered⟩

/-- The `smartWidgetInstance` argument of the lib.js `SWComponentsSet`
constructor: absent, a value of some other class, or an `SW` facade whose
`getProps().type` is the stored widget type. -/
inductive WidgetArg where
  | absent
  | nonWidget
  | widget (ty : String)
deriving DecidableEq, Repr

/-- The `type` local of the `SWComponentsSet` constructor: `"basic"` unless
`smartWidgetInstance instanceof SW`, in which case the instance's type. -/
def resolvedWidgetType : WidgetArg → String
  | .widget ty => ty
  | _ => "basic"

/-- lib.js `SWComponentsSet` constructor: resolve the widget type, validate
the components against it, `throw` (modelled by `Except.error`) the
validator's message on failure, and otherwise store the components. -/
def mkSWComponentsSet (components : List Component) (arg : WidgetArg) :
    Except String (List Component) :=
  match isSWComponentsSetValid components (resolvedWidgetType arg) with
  | ⟨true, _⟩ => .ok components
  | ⟨false, m⟩ => .error (m.getD "")

/-- The list `a, a + 1, ..., a + n - 1` as rational values. -/
def seqFrom (a n : ℕ) : List ℚ :=
  (List.range n).map (fun i => ((a + i : ℕ) : ℚ))

/-- The consecutive sequence `1 .. n`, written from the spec's words. -/
def consecSeq (n : ℕ) : List ℚ :=
  seqFrom 1 n

/-- Modelled from the spec: the button-index rule as §4.2 rule 7 words it —
the index values, deduplicated and sorted ascending, form exactly the
consecutive sequence `1..N` with `N ≤ 6`, and the deduplicated count equals
the original count (no duplicate indices). -/
def specButtonIndexRule (idxs : List ℚ) : Prop :=
  ((jsSetDedup idxs).insertionSort (· ≤ ·)) =
    consecSeq ((jsSetDedup idxs).insertionSort (· ≤ ·)).length ∧
  ((jsSetDedup idxs).insertionSort (· ≤ ·)).length ≤ 6 ∧
  (jsSetDedup idxs).length = idxs.length

/-- The quiet-period hypothesis of the collector claim: starting from a
pending timer firing at absolute time `d`, every arrival comes strictly
before the pending timer fires (and re-arms it `timeout` after itself), so
every event in the list is received. -/
def allWithinQuiet (timeout : ℕ) : ℕ → List (ℕ × NEvent) → Bool
  | _, [] => true
  | d, (t, _) :: rest => decide (t < d) && allWithinQuiet timeout (t + timeout) rest

/-- A one-image component list whose buttons carry the given index values,
used to check the documented button-index examples. -/
def demoIdx (idxs : List ℚ) : List Component :=
  Component.image "https://img.co" ::
    idxs.map (fun i => Component.button i "b" "post" "https://b.co")

/-- An icon-less component list that satisfies the basic-type rules. -/
def demoIconless : List Component :=
  [Component.image "https://img.co", Component.button 1 "go" "app" "https://x.co"]

/-- A non-basic component list with an input and two non-app buttons. -/
def demoNonApp : List Component :=
  [Component.icon "https://ic.co", Component.image "https://img.co",
   Component.inp "say", Component.button 1 "a" "post" "https://a.co",
   Component.button 2 "b" "redirect" "https://b.co"]

/-- A component list whose buttons are inserted with indexes 3, 1, 2. -/
def demoShuffled : List Component :=
  [Component.button 3 "c" "post" "https://c.co", Component.image "https://img.co",
   Component.button 1 "a" "post" "https://a.co", Component.inp "say",
   Component.button 2 "b" "post" "https://b.co"]

/-- Three events 100 ms apart, two sharing an author key. -/
def demoArrivals : List (ℕ × NEvent) :=
  [(0, ⟨"p1", "e1"⟩), (100, ⟨"p1", "e2"⟩), (200, ⟨"p2", "e3"⟩)]

/-- The non-integer rational 3/2, given in lowest terms so that every use
evaluates by kernel reduction. -/
def threeHalves : ℚ := ⟨3, 2, by decide, by decide⟩

/-- The `jsSetDedup` fold never introduces a duplicate. -/
theorem jsSetDedup_foldl_nodup {α : Type} [DecidableEq α] (xs : List α) :
    ∀ acc : List α, acc.Nodup →
      (xs.foldl (fun acc x => if x ∈ acc then acc else acc ++ [x]) acc).Nodup := by
  induction xs with
  | nil => intro acc h; exact h
  | cons x xs ih =>
    intro acc h
    simp only [List.foldl_cons]
    by_cases hx : x ∈ acc
    · simpa [hx] using ih acc h
    · rw [if_neg hx]
      refine ih (acc ++ [x]) ?_
      simp [List.nodup_append, h, hx]

/-- Membership is preserved by the `jsSetDedup` fold. -/
theorem jsSetDedup_foldl_mem {α : Type} [DecidableEq α] (xs : List α) (y : α) :
    ∀ acc : List α,
      (y ∈ xs.foldl (fun acc x => if x ∈ acc then acc else acc ++ [x]) acc ↔
        y ∈ acc ∨ y ∈ xs) := by
  induction xs with
  | nil => intro acc; simp
  | cons x xs ih =>
    intro acc
    simp only [List.foldl_cons]
    by_cases hx : x ∈ acc
    · rw [if_pos hx, ih acc]
      constructor
      · rintro (h | h)
        · exact Or.inl h
        · exact Or.inr (List.mem_cons_of_mem x h)
      · rintro (h | h)
        · exact Or.inl h
        · rcases List.mem_cons.mp h with h | h
          · exact Or.inl (h ▸ hx)
          · exact Or.inr h
    · rw [if_neg hx, ih (acc ++ [x])]
      simp only [List.mem_append, List.mem_singleton, List.mem_cons]
      tauto

/-- `[...new Set(xs)]` has no duplicates. -/
theorem jsSetDedup_nodup {α : Type} [DecidableEq α] (xs : List α) :
    (jsSetDedup xs).Nodup :=
  jsSetDedup_foldl_nodup xs [] List.nodup_nil

/-- `[...new Set(xs)]` holds exactly the elements of `xs`. -/
theorem jsSetDedup_mem {α : Type} [DecidableEq α] (xs : List α) (y : α) :
    y ∈ jsSetDedup xs ↔ y ∈ xs := by
  rw [jsSetDedup, jsSetDedup_foldl_mem]
  simp

/-- Unfolding `seqFrom` one step. -/
theorem seqFrom_succ (a n : ℕ) :
    seqFrom a (n + 1) = ((a : ℚ)) :: seqFrom (a + 1) n := by
  unfold seqFrom
  rw [List.range_succ_eq_map, List.map_cons, List.map_map]
  refine congrArg₂ _ (by norm_num) ?_
  refine List.map_congr_left fun i _ => ?_
  simp only [Function.comp_apply]
  congr 1
  omega

/-- The `every((num, i) => num === i + 1)` loop starting at position `k`
holds exactly of the consecutive rational sequence starting at `k + 1`. -/
theorem jsEveryIdx_eq_seqFrom (l : List ℚ) :
    ∀ k : ℕ,
      (jsEveryIdx (fun num i => decide (num = ((i + 1 : ℕ) : ℚ))) l k = true ↔
        l = seqFrom (k + 1) l.length) := by
  induction l with
  | nil => intro k; simp [jsEveryIdx, seqFrom]
  | cons x xs ih =>
    intro k
    rw [List.length_cons, seqFrom_succ]
    simp only [jsEveryIdx, Bool.and_eq_true, decide_eq_true_eq, ih (k + 1),
      List.cons.injEq]

/-- When `isConsecutiveArray` accepts a list of index values, the spec's
reading of rule 7 holds of them. -/
theorem isConsecutiveArray_spec (arr : List ℚ)
    (h : isConsecutiveArray arr = true) : specButtonIndexRule arr := by
  unfold isConsecutiveArray at h
  by_cases hlen : ((jsSetDedup arr).insertionSort (· ≤ ·)).length > 6
  · simp only [hlen, if_true] at h
    exact absurd h (by simp)
  · simp only [hlen, if_false, Bool.and_eq_true, decide_eq_true_eq] at h
    obtain ⟨⟨hcount, _⟩, hevery⟩ := h
    rw [jsEveryIdx_eq_seqFrom] at hevery
    refine ⟨hevery, by omega, ?_⟩
    calc (jsSetDedup arr).length
        = ((jsSetDedup arr).insertionSort (· ≤ ·)).length :=
          (List.Perm.length_eq (List.perm_insertionSort _ _)).symm
      _ = arr.length := hcount

/-- Deleting a different key does not change a property read. -/
theorem jsLookup_jsDelete_ne (k other : String) (obj : List (String × JSVal))
    (hne : k ≠ other) : jsLookup k (jsDelete other obj) = jsLookup k obj := by
  unfold jsDelete
  induction obj with
  | nil => rfl
  | cons p rest ih =>
    by_cases hp : p.1 = other
    · have hk : ¬ p.1 = k := fun h => hne (h.symm.trans hp)
      rw [List.filter_cons, if_neg (by simpa using hp), ih]
      simp [jsLookup, hk]
    · rw [List.filter_cons, if_pos (by simpa using hp)]
      by_cases hk : p.1 = k
      · simp [jsLookup, hk]
      · simp only [jsLookup]
        rw [if_neg hk, if_neg hk]
        exact ih

/-- An event arriving strictly before the pending timer fires is pushed and
re-arms the timer. -/
theorem stepEvent_receives (timeout : ℕ) (evs pks : List String) (d : ℕ)
    (t : ℕ) (e : NEvent) (hlt : t < d) :
    stepEvent timeout ⟨evs, pks, d, none⟩ (t, e) =
      ⟨evs ++ [e.raw], pks ++ [e.pubkey], t + timeout, none⟩ := by
  simp [stepEvent, Nat.not_le.mpr hlt]

/-- Running the collection from an unresolved state through arrivals that
all come within the quiet period appends every raw event and every author
key, in order, and leaves the promise pending (the final timer resolves
it). -/
theorem collect_foldl (timeout : ℕ) (arrivals : List (ℕ × NEvent)) :
    ∀ (evs pks : List String) (d : ℕ),
      allWithinQuiet timeout d arrivals = true →
      ∃ d', arrivals.foldl (stepEvent timeout) ⟨evs, pks, d, none⟩ =
        ⟨evs ++ arrivals.map (fun a => a.2.raw),
         pks ++ arrivals.map (fun a => a.2.pubkey), d', none⟩ := by
  induction arrivals with
  | nil =>
    intro evs pks d _
    exact ⟨d, by simp⟩
  | cons a rest ih =>
    intro evs pks d h
    obtain ⟨t, e⟩ := a
    simp only [allWithinQuiet, Bool.and_eq_true, decide_eq_true_eq] at h
    obtain ⟨hlt, hrest⟩ := h
    rw [List.foldl_cons, stepEvent_receives timeout evs pks d t e hlt]
    obtain ⟨d', hd'⟩ := ih (evs ++ [e.raw]) (pks ++ [e.pubkey]) (t + timeout) hrest
    refine ⟨d', ?_⟩
    rw [hd']
    simp

/-- When every arrival comes within the quiet period, the collection
resolves with all raw events in arrival order and the de-duplicated author
keys. -/
theorem runCollector_receives_all (timeout : ℕ) (arrivals : List (ℕ × NEvent))
    (h : allWithinQuiet timeout timeout arrivals = true) :
    runCollector timeout arrivals =
      ⟨arrivals.map (fun a => a.2.raw),
       jsSetDedup (arrivals.map (fun a => a.2.pubkey))⟩ := by
  unfold runCollector
  obtain ⟨d', hd'⟩ := collect_foldl timeout arrivals [] [] timeout h
  rw [hd']
  simp

/-- Claim C5: for an absent or empty filter argument, the event collector
resolves immediately with empty data and pubkeys and opens no
subscription. -/
theorem getSubData_empty_filter_resolves_empty :
    (∀ (timeout : ℕ) (arrivals : List (ℕ × NEvent)),
      getSubData none timeout arrivals = ⟨[], [], false, none⟩) ∧
    (∀ (timeout : ℕ) (arrivals : List (ℕ × NEvent)),
      getSubData (some []) timeout arrivals = ⟨[], [], false, none⟩) :=
  ⟨fun _ _ => rfl, fun _ _ => rfl⟩

/-- Claim C6 (divergence witness): the title validator rejects `undefined`
(its `typeof` check admits strings only), so a `publish`/`signEvent` call
with an omitted title fails the title check, against the documented
optional-title contract; the empty string and other strings do pass. -/
theorem isTitleValid_rejects_undefined :
    isTitleValid JSVal.undef = false ∧ isTitleValid (JSVal.str "") = true ∧
    isTitleValid (JSVal.str "My Widget") = true ∧
    isTitleValid (JSVal.num 1) = false := by
  decide

/-- Claim C7 (divergence witness): the Button constructor only rejects a
non-number or exact-zero index, so a negative index (−3) and a non-integer
index (3/2) both construct a Button, against the documented
integer-at-least-1 contract. -/
theorem mkButton_accepts_negative_and_fractional_index :
    mkButton (JSVal.num (-3)) (JSVal.str "go") (JSVal.str "app")
      (JSVal.str "https://x.co") = .ok ⟨-3, "go", "app", "https://x.co"⟩ ∧
    ((-3 : ℚ) < 1) ∧
    mkButton (JSVal.num threeHalves) (JSVal.str "go") (JSVal.str "app")
      (JSVal.str "https://x.co") = .ok ⟨threeHalves, "go", "app", "https://x.co"⟩ ∧
    threeHalves.den ≠ 1 :=
  ⟨by rfl, by decide, by rfl, by decide⟩

/-- Claim C8: on every string url and every validation context the URL
validator returns a structured result — a validity flag with no reason on
success and a present reason on failure; the embedded function is total, so
no input makes it throw. -/
theorem isURLValid_structured_total (url ty : String) :
    ((isURLValid url ty).status = true ∧ (isURLValid url ty).msg = none) ∨
    ((isURLValid url ty).status = false ∧ (isURLValid url ty).msg ≠ none) := by
  unfold isURLValid
  split_ifs <;> simp

/-- Claim C9 (counterexample): a filter field other than `"#t"` whose value
is falsy-empty (here `ids: ""`) is NOT stripped before submission — the
submitted filter still carries it, refuting the any-field reading of the
stripping rule. -/
theorem getSubData_keeps_falsy_non_hashT_field :
    (getSubData (some [[("ids", JSVal.str "")]]) 1000 []).submittedFilters =
      some [[("ids", JSVal.str "")]] ∧
    jsFalsy (JSVal.str "") = true := by
  decide

/-- Claim C9 (amended): only the `"#t"` field is stripped, and only when its
value is falsy; a non-falsy `"#t"` leaves the filter unchanged and every
other key reads the same before and after the stripping. -/
theorem getSubData_strips_only_falsy_hashT
    (fl : List (List (String × JSVal))) (timeout : ℕ)
    (arrivals : List (ℕ × NEvent)) (hfl : fl ≠ []) :
    (getSubData (some fl) timeout arrivals).submittedFilters =
      some (fl.map stripHashT) ∧
    (∀ obj ∈ fl,
      (jsFalsy (jsLookup "#t" obj) = true →
        ∀ p ∈ stripHashT obj, p.1 ≠ "#t") ∧
      (jsFalsy (jsLookup "#t" obj) = false → stripHashT obj = obj) ∧
      (∀ k, k ≠ "#t" → jsLookup k (stripHashT obj) = jsLookup k obj)) := by
  have hlen : ¬ fl.length = 0 := by simpa [List.length_eq_zero] using hfl
  refine ⟨by simp [getSubData, hlen], ?_⟩
  intro obj _
  refine ⟨?_, ?_, ?_⟩
  · intro hf p hp
    unfold stripHashT at hp
    rw [if_pos hf] at hp
    have := List.of_mem_filter hp
    simpa using this
  · intro hf
    unfold stripHashT
    rw [hf]
    simp
  · intro k hk
    unfold stripHashT
    by_cases hf : jsFalsy (jsLookup "#t" obj) = true
    · rw [if_pos hf]
      exact jsLookup_jsDelete_ne k "#t" obj hk
    · rw [if_neg hf]

/-- Witness for the amended C9 theorem at a concrete two-field filter. -/
theorem getSubData_strips_only_falsy_hashT_witness :
    ([[("#t", JSVal.str ""), ("ids", JSVal.str "x")]] ≠
      ([] : List (List (String × JSVal)))) ∧
    ((getSubData (some [[("#t", JSVal.str ""), ("ids", JSVal.str "x")]]) 1000 []).submittedFilters =
      some ([[("#t", JSVal.str ""), ("ids", JSVal.str "x")]].map stripHashT) ∧
    (∀ obj ∈ [[("#t", JSVal.str ""), ("ids", JSVal.str "x")]],
      (jsFalsy (jsLookup "#t" obj) = true →
        ∀ p ∈ stripHashT obj, p.1 ≠ "#t") ∧
      (jsFalsy (jsLookup "#t" obj) = false → stripHashT obj = obj) ∧
      (∀ k, k ≠ "#t" → jsLookup k (stripHashT obj) = jsLookup k obj))) :=
  ⟨by decide,
   getSubData_strips_only_falsy_hashT [[("#t", JSVal.str ""), ("ids", JSVal.str "x")]]
     1000 [] (by decide)⟩

/-- Claim C10: constructing a component set with the widget-instance
argument absent, or with a non-widget value, validates against the
`"basic"` rules; an icon-less basic-valid set is accepted that way even
though the `"action"` rules would reject it for the missing icon. -/
theorem mkSWComponentsSet_defaults_to_basic :
    (∀ (components : List Component) (arg : WidgetArg),
      arg = WidgetArg.absent ∨ arg = WidgetArg.nonWidget →
      mkSWComponentsSet components arg =
        mkSWComponentsSet components (WidgetArg.widget "basic")) ∧
    mkSWComponentsSet demoIconless WidgetArg.absent = .ok demoIconless ∧
    mkSWComponentsSet demoIconless WidgetArg.nonWidget = .ok demoIconless ∧
    isSWComponentsSetValid demoIconless "action" = ⟨false, some msgIconRequired⟩ := by
  refine ⟨?_, by rfl, by rfl, by decide⟩
  intro components arg h
  rcases h with h | h <;> subst h <;> rfl

/-- Witness applying the universal part of the C10 theorem at the absent
widget argument. -/
theorem mkSWComponentsSet_defaults_to_basic_witness :
    (WidgetArg.absent = WidgetArg.absent ∨ WidgetArg.absent = WidgetArg.nonWidget) ∧
    mkSWComponentsSet demoIconless WidgetArg.absent =
      mkSWComponentsSet demoIconless (WidgetArg.widget "basic") :=
  ⟨Or.inl rfl,
   mkSWComponentsSet_defaults_to_basic.1 demoIconless WidgetArg.absent (Or.inl rfl)⟩

/-- Claim C2: the encoder emits the Icon and Image tags in their original
relative order, then the Input tags, then the Button tags as a permutation
of the button entries that is sorted ascending by index; on a pure function
re-encoding the same set trivially yields the same tag array. -/
theorem getProps_canonical_tag_order (components : List Component) (ty : String)
    (_hv : (isSWComponentsSetValid components ty).status = true) :
    ∃ sortedBtns : List BtnEntry,
      sortedBtns.Perm (buttonEntries components) ∧
      List.Sorted (· ≤ ·) (sortedBtns.map BtnEntry.index) ∧
      SWComponentsSet_getProps components =
        iconImageTags components ++ inputTags components ++
          sortedBtns.map BtnEntry.metadata := by
  refine ⟨(buttonEntries components).insertionSort (fun a b => a.index ≤ b.index),
    List.perm_insertionSort _ _, ?_, rfl⟩
  haveI : IsTotal BtnEntry (fun a b => a.index ≤ b.index) :=
    ⟨fun a b => le_total a.index b.index⟩
  haveI : IsTrans BtnEntry (fun a b => a.index ≤ b.index) :=
    ⟨fun _ _ _ hab hbc => le_trans hab hbc⟩
  have hs := List.sorted_insertionSort (fun a b : BtnEntry => a.index ≤ b.index)
    (buttonEntries components)
  exact List.Pairwise.map _ (fun _ _ h => h) hs

/-- Witness applying the C2 theorem to a set whose buttons are inserted
with indexes 3, 1, 2, and checking the reordered concrete encoding. -/
theorem getProps_canonical_tag_order_witness :
    (isSWComponentsSetValid demoShuffled "basic").status = true ∧
    (∃ sortedBtns : List BtnEntry,
      sortedBtns.Perm (buttonEntries demoShuffled) ∧
      List.Sorted (· ≤ ·) (sortedBtns.map BtnEntry.index) ∧
      SWComponentsSet_getProps demoShuffled =
        iconImageTags demoShuffled ++ inputTags demoShuffled ++
          sortedBtns.map BtnEntry.metadata) ∧
    SWComponentsSet_getProps demoShuffled =
      [["image", "https://img.co"], ["input", "say"],
       ["button", "a", "post", "https://a.co"],
       ["button", "b", "post", "https://b.co"],
       ["button", "c", "post", "https://c.co"]] :=
  ⟨by decide, getProps_canonical_tag_order demoShuffled "basic" (by decide), by decide⟩

/-- Claim C4: when every event of a finite arrival sequence comes within the
quiet period, the collector resolves with all raw events in arrival order as
`data` and the author keys de-duplicated (first occurrence kept, no
duplicates, same members) as `pubkeys`; a resolved collection ignores any
further delivery, so the promise resolves exactly once. -/
theorem getSubData_quiet_period_collects_all
    (fl : List (List (String × JSVal))) (timeout : ℕ)
    (arrivals : List (ℕ × NEvent)) (hfl : fl ≠ [])
    (hq : allWithinQuiet timeout timeout arrivals = true) :
    (getSubData (some fl) timeout arrivals).data =
      arrivals.map (fun a => a.2.raw) ∧
    (getSubData (some fl) timeout arrivals).pubkeys =
      jsSetDedup (arrivals.map (fun a => a.2.pubkey)) ∧
    (jsSetDedup (arrivals.map (fun a => a.2.pubkey))).Nodup ∧
    (∀ y, y ∈ jsSetDedup (arrivals.map (fun a => a.2.pubkey)) ↔
      y ∈ arrivals.map (fun a => a.2.pubkey)) ∧
    (∀ (st : CollectState) (a : ℕ × NEvent), st.result.isSome = true →
      stepEvent timeout st a = st) := by
  have hlen : ¬ fl.length = 0 := by simpa [List.length_eq_zero] using hfl
  have hrun := runCollector_receives_all timeout arrivals hq
  refine ⟨by simp [getSubData, hlen, hrun], by simp [getSubData, hlen, hrun],
    jsSetDedup_nodup _, fun y => jsSetDedup_mem _ y, ?_⟩
  intro st a hst
  simp [stepEvent, hst]

/-- Witness applying the C4 theorem to three events 100 ms apart under a
1000 ms quiet period. -/
theorem getSubData_quiet_period_collects_all_witness :
    ([[("kinds", JSVal.num 1)]] ≠ ([] : List (List (String × JSVal)))) ∧
    allWithinQuiet 1000 1000 demoArrivals = true ∧
    ((getSubData (some [[("kinds", JSVal.num 1)]]) 1000 demoArrivals).data =
      demoArrivals.map (fun a => a.2.raw) ∧
    (getSubData (some [[("kinds", JSVal.num 1)]]) 1000 demoArrivals).pubkeys =
      jsSetDedup (demoArrivals.map (fun a => a.2.pubkey)) ∧
    (jsSetDedup (demoArrivals.map (fun a => a.2.pubkey))).Nodup ∧
    (∀ y, y ∈ jsSetDedup (demoArrivals.map (fun a => a.2.pubkey)) ↔
      y ∈ demoArrivals.map (fun a => a.2.pubkey)) ∧
    (∀ (st : CollectState) (a : ℕ × NEvent), st.result.isSome = true →
      stepEvent 1000 st a = st)) :=
  ⟨by decide, by decide,
   getSubData_quiet_period_collects_all [[("kinds", JSVal.num 1)]] 1000 demoArrivals
     (by decide) (by decide)⟩

/-- Claim C1: whenever the set validator accepts a component list holding at
least one Button, the buttons' index values satisfy the spec's rule 7 — the
deduplicated, ascending-sorted indexes are exactly the consecutive sequence
1..N with N ≤ 6 and no index repeats — and the documented index examples
behave as stated: 1,2,3 passes while 1,2,4 / 2,3,4 / 1,1,2 / 1..7 are
rejected with the exceeded-limit-or-non-consecutive reason. -/
theorem set_validator_button_index_rule :
    (∀ (components : List Component) (ty : String),
      buttonIndexes components ≠ [] →
      (isSWComponentsSetValid components ty).status = true →
      specButtonIndexRule (buttonIndexes components)) ∧
    isSWComponentsSetValid (demoIdx [1, 2, 3]) "basic" = ⟨true, none⟩ ∧
    isSWComponentsSetValid (demoIdx [1, 2, 4]) "basic" =
      ⟨false, some msgButtonIndexes⟩ ∧
    isSWComponentsSetValid (demoIdx [2, 3, 4]) "basic" =
      ⟨false, some msgButtonIndexes⟩ ∧
    isSWComponentsSetValid (demoIdx [1, 1, 2]) "basic" =
      ⟨false, some msgButtonIndexes⟩ ∧
    isSWComponentsSetValid (demoIdx [1, 2, 3, 4, 5, 6, 7]) "basic" =
      ⟨false, some msgButtonIndexes⟩ := by
  refine ⟨?_, by decide, by decide, by decide, by decide, by decide⟩
  intro components ty hb hv
  simp only [isSWComponentsSetValid] at hv
  split_ifs at hv with h1 h2 h3 h4 h5 h6 h7 h8 h9
  simp at hv
  refine isConsecutiveArray_spec _ ?_
  cases hcb : isConsecutiveArray (buttonIndexes components) with
  | true => rfl
  | false => exact absurd ⟨List.length_pos.mpr hb, hcb⟩ h9

/-- Witness applying the universal part of the C1 theorem to an accepted
set with buttons 1, 2, 3. -/
theorem set_validator_button_index_rule_witness :
    buttonIndexes (demoIdx [1, 2, 3]) ≠ [] ∧
    (isSWComponentsSetValid (demoIdx [1, 2, 3]) "basic").status = true ∧
    specButtonIndexRule (buttonIndexes (demoIdx [1, 2, 3])) :=
  ⟨by decide, by decide,
   set_validator_button_index_rule.1 (demoIdx [1, 2, 3]) "basic" (by decide) (by decide)⟩

/-- Claim C3: over a non-basic widget type, once the component-class check
and the image and icon count rules have passed, the validator returns the
app-button failure exactly when the set holds at least one Input, more than
one Button, and no Button of type `app`; in every other combination that
failure is not produced. -/
theorem set_validator_nonbasic_app_rule (components : List Component) (ty : String)
    (hty : ty = "action" ∨ ty = "tool")
    (hknown : components.any Component.isUnknown = false)
    (himg : (components.filter Component.isImage).length = 1)
    (hicon : (components.filter Component.isIcon).length = 1) :
    isSWComponentsSetValid components ty = ⟨false, some msgAppButton⟩ ↔
      ((components.filter Component.isInput).length > 0 ∧
       (buttonIndexes components).length > 1 ∧
       "app" ∉ buttonTypesOf components) := by
  have hne : ¬ components.length = 0 := by
    intro h0
    rw [List.length_eq_zero] at h0
    subst h0
    simp at himg
  have hdef : decide (ty ∉ ["action", "tool"]) = false := by
    rcases hty with h | h <;> subst h <;> rfl
  by_cases hc : (components.filter Component.isInput).length > 0 ∧
      (buttonIndexes components).length > 1 ∧ "app" ∉ buttonTypesOf components
  · simp only [hc, iff_true]
    simp [isSWComponentsSetValid, hne, hknown, himg, hicon, hdef, hc]
    intro hA hB
    rcases hty with h | h
    · exact absurd h hA
    · exact absurd h hB
  · simp only [hc, iff_false]
    simp only [isSWComponentsSetValid, hne, if_false, hknown, himg, hicon, hdef]
    intro hEq
    split_ifs at hEq <;> simp_all [msgNonEmptyArray, msgUnknownComponent,
      msgImageRequired, msgTooManyImages, msgIconRequired, msgTooManyIcons,
      msgAppButton, msgTooManyInputs, msgButtonIndexes]

/-- Witness applying the C3 theorem to an action-type set with an icon, an
image, one input and two non-app buttons, for which the rule fires. -/
theorem set_validator_nonbasic_app_rule_witness :
    (("action" : String) = "action" ∨ ("action" : String) = "tool") ∧
    demoNonApp.any Component.isUnknown = false ∧
    (demoNonApp.filter Component.isImage).length = 1 ∧
    (demoNonApp.filter Component.isIcon).length = 1 ∧
    (isSWComponentsSetValid demoNonApp "action" = ⟨false, some msgAppButton⟩ ↔
      ((demoNonApp.filter Component.isInput).length > 0 ∧
       (buttonIndexes demoNonApp).length > 1 ∧
       "app" ∉ buttonTypesOf demoNonApp)) :=
  ⟨Or.inl rfl, by decide, by decide, by decide,
   set_validator_nonbasic_app_rule demoNonApp "action" (Or.inl rfl) (by decide)
     (by decide) (by decide)⟩
